import Mathlib

/-!
Verification of the Synapse reliable-UDP core against its specification.

The C++ sources are shallowly embedded: machine integers become `Nat` with
explicit `% 2^w` where wrap-around matters (`uint16` arithmetic is `% 65536`,
`uint32` is `% 4294967296`, `uint64` is `% 18446744073709551616`), buffers
become lists, pointers returned from buffer lookups become `Option Nat` flat
indices, and fallible operations return `Option`.
-/

/-! ### Sequence arithmetic (src/Network/include/ReliableUDP/UnreliableProcessMessageChannel.hpp, `SequenceGreaterThan` / `SequenceLessThan`)

In the source both arguments are `uint16_t`; the subtractions happen after
integer promotion, under the guards `s1 > s2` resp. `s1 < s2`, so truncated
`Nat` subtraction agrees with the promoted `int` subtraction. -/

def SequenceGreaterThan (s1 s2 : Nat) : Bool :=
  (s1 > s2 && s1 - s2 ≤ 32768) || (s1 < s2 && s2 - s1 > 32768)

def SequenceLessThan (s1 s2 : Nat) : Bool :=
  SequenceGreaterThan s2 s1

/-! ### BitsRequired (src/Serialisation/include/SerialiseBit.hpp)

`bits_per_uint64_t - countl_zero(max - min)` equals the bit length of
`max - min` for any value representable in 64 bits: the largest `i < 64`
with `2 ^ i ≤ x`, plus one (and `0` for `x = 0`). -/

def bitLength64 (x : Nat) : Nat :=
  (List.range 64).foldl (fun acc i => if 2 ^ i ≤ x then i + 1 else acc) 0

def BitsRequired (lo hi : Nat) : Nat :=
  if hi ≤ lo then 0 else bitLength64 (hi - lo)

/-! ### GetRelativeSequenceEncodingBits (src/Serialisation/include/SerialiseBit.hpp)

Both arguments are `uint16_t`; `b` is computed in `uint32` arithmetic and is
always at least `a`, so `Nat` subtraction is exact. -/

def GetRelativeSequenceEncodingBits (first_sequence second_sequence : Nat) : Nat :=
  let a := first_sequence
  let b := second_sequence + (if second_sequence ≤ first_sequence then 65536 else 0)
  let difference := b - a
  if difference = 1 then 1
  else if difference < 6 then 2 + BitsRequired 2 5
  else if difference < 22 then 3 + BitsRequired 6 21
  else if difference < 278 then 4 + BitsRequired 22 277
  else if difference < 4374 then 5 + BitsRequired 278 4373
  else if difference < 69910 then 6 + BitsRequired 4374 69909
  else 32

/-! ### ReliableBuffer (src/Network/include/ReliableUDP/UnreliableProcessMessageChannel.hpp)

The sliding sequence buffer, templated in the source on the element type,
the capacity `max_element_number` (here `N`) and the connection count.  The
per-connection `m_sequence` is a `uint16`, `m_entry_sequence` a flat
`uint32` array with `0xFFFFFFFF` marking an empty slot, `m_entry_data` the
flat data array.  Arrays become functions from the flat index; the pointer
an operation returns becomes the flat index `connection * N + s % N`. -/

def U32MAX : Nat := 4294967295

def fupd {α : Type} (f : Nat → α) (i : Nat) (v : α) : Nat → α :=
  fun j => if j = i then v else f j

structure ReliableBuffer (α : Type) where
  sequence : Nat → Nat
  entry_sequence : Nat → Nat
  entry_data : Nat → α

def ReliableBuffer.clearEntry {α : Type} (buf : ReliableBuffer α) (idx : Nat) :
    ReliableBuffer α :=
  { buf with entry_sequence := fupd buf.entry_sequence idx U32MAX }

/-- `ReliableBuffer::RemoveEntries`.  `start_sequence` and `finish_sequence`
are `int` in the source (fed from `uint16` values); the sweep writes the
sentinel at `sequence % N` for each `sequence` in `[start, finish]`, or
clears the connection's whole slice when the range reaches `N`. -/
def ReliableBuffer.RemoveEntries {α : Type} (N : Nat) (buf : ReliableBuffer α)
    (c start finish : Nat) : ReliableBuffer α :=
  let finish := if finish < start then finish + 65536 else finish
  if finish - start < N then
    (List.range (finish - start + 1)).foldl
      (fun b k => b.clearEntry (c * N + (start + k) % N)) buf
  else
    (List.range N).foldl (fun b i => b.clearEntry (c * N + i)) buf

/-- `ReliableBuffer::Insert`.  Returns the updated buffer and the flat index
of the returned entry pointer (`none` for `nullptr`).  `sequence + 1` and
`m_sequence - (uint16)max_element_number` wrap in `uint16` arithmetic. -/
def ReliableBuffer.Insert {α : Type} (N : Nat) (buf : ReliableBuffer α)
    (c s : Nat) : ReliableBuffer α × Option Nat :=
  if SequenceGreaterThan ((s + 1) % 65536) (buf.sequence c) then
    let buf := buf.RemoveEntries N c (buf.sequence c) s
    let buf := { buf with sequence := fupd buf.sequence c ((s + 1) % 65536) }
    let idx := c * N + s % N
    ({ buf with entry_sequence := fupd buf.entry_sequence idx s }, some idx)
  else if SequenceLessThan s ((buf.sequence c + 65536 - N % 65536) % 65536) then
    (buf, none)
  else
    let idx := c * N + s % N
    ({ buf with entry_sequence := fupd buf.entry_sequence idx s }, some idx)

def ReliableBuffer.Find {α : Type} (N : Nat) (buf : ReliableBuffer α)
    (c s : Nat) : Option Nat :=
  let idx := c * N + s % N
  if buf.entry_sequence idx = s then some idx else none

def ReliableBuffer.ExistsEntry {α : Type} (N : Nat) (buf : ReliableBuffer α)
    (c s : Nat) : Bool :=
  buf.entry_sequence (c * N + s % N) = s

def ReliableBuffer.Available {α : Type} (N : Nat) (buf : ReliableBuffer α)
    (c s : Nat) : Bool :=
  buf.entry_sequence (c * N + s % N) = U32MAX

def ReliableBuffer.Remove {α : Type} (N : Nat) (buf : ReliableBuffer α)
    (c s : Nat) : ReliableBuffer α :=
  buf.clearEntry (c * N + s % N)

def ReliableBuffer.setData {α : Type} (buf : ReliableBuffer α) (idx : Nat)
    (v : α) : ReliableBuffer α :=
  { buf with entry_data := fupd buf.entry_data idx v }

/-- `ReliableBuffer::GenerateAcknowledgementBits`: `ack = m_sequence - 1`
(`uint16` wrap), and for `i` in `0..31` the mask `1 << i` is or-ed in when
an entry exists for `ack - i` (`uint16` wrap). -/
def ReliableBuffer.GenerateAcknowledgementBits {α : Type} (N : Nat)
    (buf : ReliableBuffer α) (c : Nat) : Nat × Nat :=
  let ack := (buf.sequence c + 65535) % 65536
  let ack_bits := (List.range 32).foldl
    (fun acc i =>
      if buf.ExistsEntry N c ((ack + 65536 - i) % 65536) then acc ||| (1 <<< i)
      else acc) 0
  (ack, ack_bits)

/-! ### Bit codec (src/unnamed/part_016: `BitWriter`, `BitReader`)

The buffer is a list of 32-bit words; network order is little-endian, so
byte `k` of a word is `w / 256 ^ k % 256` and `std::copy_n` between byte
and word views is exactly `bytesToWord` / `wordByte` below. -/

def bytesToWord (b0 b1 b2 b3 : Nat) : Nat :=
  b0 + 256 * b1 + 65536 * b2 + 16777216 * b3

def wordByte (w k : Nat) : Nat :=
  w / 256 ^ k % 256

def packWords (bytes : List Nat) (n : Nat) : List Nat :=
  (List.range n).map fun j =>
    bytesToWord (bytes.getD (4 * j) 0) (bytes.getD (4 * j + 1) 0)
      (bytes.getD (4 * j + 2) 0) (bytes.getD (4 * j + 3) 0)

def setWords : List Nat → Nat → List Nat → List Nat
  | data, _, [] => data
  | data, i, w :: ws => setWords (data.set i w) (i + 1) ws

def unpackWords (words : List Nat) (startWord count : Nat) : List Nat :=
  (List.range (4 * count)).map fun i =>
    wordByte (words.getD (startWord + i / 4) 0) (i % 4)

structure BitWriterState where
  data : List Nat
  scratch : Nat
  scratch_bits : Nat
  bits_written : Nat
  word_index : Nat

def BitWriterState.init (words : Nat) : BitWriterState :=
  ⟨List.replicate words 0, 0, 0, 0, 0⟩

/-- `BitWriter::WriteBits`: or the low bits of `value` (a `uint32`) into the
64-bit scratch at `m_scratch_bits`; once 32 bits accumulate, emit the low
word and shift the scratch right by 32. -/
def BitWriterState.WriteBits (w : BitWriterState) (value bits : Nat) : BitWriterState :=
  let scratch := (w.scratch ||| ((value % 4294967296) <<< w.scratch_bits)) % 18446744073709551616
  let scratch_bits := w.scratch_bits + bits
  if 32 ≤ scratch_bits then
    { data := w.data.set w.word_index (scratch % 4294967296),
      scratch := scratch >>> 32,
      scratch_bits := scratch_bits - 32,
      bits_written := w.bits_written + bits,
      word_index := w.word_index + 1 }
  else
    { w with
      scratch := scratch,
      scratch_bits := scratch_bits,
      bits_written := w.bits_written + bits }

/-- `BitWriter::WriteBytes`: up to 3 head bytes one at a time, a middle run
of whole words copied at `m_32_bit_int_index`, up to 3 tail bytes. -/
def BitWriterState.WriteBytes (w : BitWriterState) (bytes : List Nat) : BitWriterState :=
  let n := bytes.length
  let head_bytes := min ((4 - w.bits_written % 32 / 8) % 4) n
  let w1 := (List.range head_bytes).foldl
    (fun acc i => acc.WriteBits (bytes.getD i 0) 8) w
  if head_bytes = n then w1
  else
    let num_words := (n - head_bytes) / 4
    let w2 :=
      if 0 < num_words then
        { w1 with
          data := setWords w1.data w1.word_index (packWords (bytes.drop head_bytes) num_words),
          bits_written := w1.bits_written + 32 * num_words,
          word_index := w1.word_index + num_words }
      else w1
    let tail_start := head_bytes + num_words * 4
    (List.range (n - tail_start)).foldl
      (fun acc i => acc.WriteBits (bytes.getD (tail_start + i) 0) 8) w2

def BitWriterState.FlushBits (w : BitWriterState) : BitWriterState :=
  if w.scratch_bits ≠ 0 then
    { w with
      data := w.data.set w.word_index (w.scratch % 4294967296),
      scratch := w.scratch >>> 32,
      scratch_bits := 0,
      word_index := w.word_index + 1 }
  else w

def BitWriterState.GetBytesWritten (w : BitWriterState) : Nat :=
  (w.bits_written + 7) / 8

structure BitReaderState where
  data : List Nat
  num_bytes : Nat
  bits_read : Nat
  scratch_bits : Nat
  word_index : Nat
  scratch : Nat

def BitReaderState.init (data : List Nat) (bytes : Nat) : BitReaderState :=
  ⟨data, bytes, 0, 0, 0, 0⟩

def BitReaderState.WouldReadPastEnd (r : BitReaderState) (bits : Nat) : Bool :=
  r.num_bytes * 8 < r.bits_read + bits

/-- `BitReader::ReadBits`: load the next word into the scratch high bits when
fewer than `bits` remain buffered, then mask off the low `bits` and shift. -/
def BitReaderState.ReadBits (r : BitReaderState) (bits : Nat) : BitReaderState × Nat :=
  let load := r.scratch_bits < bits
  let scratch :=
    if load then
      (r.scratch ||| (r.data.getD r.word_index 0 <<< r.scratch_bits)) % 18446744073709551616
    else r.scratch
  let scratch_bits := if load then r.scratch_bits + 32 else r.scratch_bits
  let word_index := if load then r.word_index + 1 else r.word_index
  let output := scratch &&& ((1 <<< bits) - 1)
  ({ r with
      bits_read := r.bits_read + bits,
      scratch := scratch >>> bits,
      scratch_bits := scratch_bits - bits,
      word_index := word_index }, output)

def readByteRun (r : BitReaderState) (k : Nat) : BitReaderState × List Nat :=
  (List.range k).foldl
    (fun st _ =>
      let out := st.1.ReadBits 8
      (out.1, st.2 ++ [out.2 % 256]))
    (r, [])

/-- `BitReader::ReadBytes`: up to 3 head bytes through `ReadBits`, a middle
run of whole words, up to 3 tail bytes.  The middle-run `std::copy_n` in the
source reads from `&m_bitpacked_data[number_of_32_bit_integers]` — the word
index equal to the count of words being copied — rather than from the
current word index `m_32_bit_int_index`; that source index is embedded
as written. -/
def BitReaderState.ReadBytes (r : BitReaderState) (n : Nat) : BitReaderState × List Nat :=
  let head_bytes := min ((4 - r.bits_read % 32 / 8) % 4) n
  let out1 := readByteRun r head_bytes
  if head_bytes = n then out1
  else
    let r1 := out1.1
    let num_words := (n - head_bytes) / 4
    let out2 :=
      if 0 < num_words then
        ({ r1 with
            bits_read := r1.bits_read + 32 * num_words,
            word_index := r1.word_index + num_words },
         unpackWords r1.data num_words num_words)
      else (r1, [])
    let tail_start := head_bytes + num_words * 4
    let out3 := readByteRun out2.1 (n - tail_start)
    (out3.1, out1.2 ++ out2.2 ++ out3.2)

/-- Byte round-trip at the byte-aligned start of a fresh buffer of `words`
32-bit words: write the byte string, flush, then read it back from the
buffer through a reader sized by `GetBytesWritten`. -/
def byteRoundTrip (bytes : List Nat) (words : Nat) : List Nat :=
  let w := (BitWriterState.init words).WriteBytes bytes
  let w := w.FlushBits
  let r := BitReaderState.init w.data w.GetBytesWritten
  (r.ReadBytes bytes.length).2

/-! ### Streams (src/Serialisation/source/WriteStream.cpp, src/unnamed/part_015)

`WriteStream::SerialiseInteger` writes `value - min` in
`BitsRequired(min, max)` bits; `ReadStream::DeserialiseInteger` checks
`WouldReadPastEnd` and adds `min` back; `DeserialiseBits` and
`DeserialiseBool` likewise.  The `CoreSerialise` stream the network layer
uses takes the range at run time with the same semantics. -/

def serialiseBits (w : BitWriterState) (value bits : Nat) : BitWriterState :=
  w.WriteBits value bits

def serialiseInteger (w : BitWriterState) (value lo hi : Nat) : BitWriterState :=
  w.WriteBits (value - lo) (BitsRequired lo hi)

def deserialiseBits (r : BitReaderState) (bits : Nat) : Option (BitReaderState × Nat) :=
  if r.WouldReadPastEnd bits then none else some (r.ReadBits bits)

def deserialiseInteger (r : BitReaderState) (lo hi : Nat) : Option (BitReaderState × Nat) :=
  if r.WouldReadPastEnd (BitsRequired lo hi) then none
  else
    let out := r.ReadBits (BitsRequired lo hi)
    some (out.1, out.2 + lo)

def deserialiseBool (r : BitReaderState) : Option (BitReaderState × Bool) :=
  (deserialiseBits r 1).map fun out => (out.1, out.2 != 0)

/-- `ReadStream::DeserialiseUnsignedIntegerRelative<uint32_t>`
(src/unnamed/part_015): tiered one-bit flags, then the matching payload
range, with a raw 32-bit fallback; `current = previous + difference` wraps
in `uint32`. -/
def deserialiseUnsignedIntegerRelative32 (r : BitReaderState) (previous : Nat) :
    Option (BitReaderState × Nat) :=
  match deserialiseBool r with
  | none => none
  | some (r, flag) =>
    if flag then some (r, (previous + 1) % 4294967296)
    else
      match deserialiseBool r with
      | none => none
      | some (r, flag) =>
        if flag then
          (deserialiseInteger r 2 5).map fun out => (out.1, (previous + out.2) % 4294967296)
        else
          match deserialiseBool r with
          | none => none
          | some (r, flag) =>
            if flag then
              (deserialiseInteger r 6 21).map fun out => (out.1, (previous + out.2) % 4294967296)
            else
              match deserialiseBool r with
              | none => none
              | some (r, flag) =>
                if flag then
                  (deserialiseInteger r 22 277).map fun out =>
                    (out.1, (previous + out.2) % 4294967296)
                else
                  match deserialiseBool r with
                  | none => none
                  | some (r, flag) =>
                    if flag then
                      (deserialiseInteger r 278 4373).map fun out =>
                        (out.1, (previous + out.2) % 4294967296)
                    else
                      match deserialiseBool r with
                      | none => none
                      | some (r, flag) =>
                        if flag then
                          (deserialiseInteger r 4374 69909).map fun out =>
                            (out.1, (previous + out.2) % 4294967296)
                        else deserialiseInteger r 0 4294967295

/-- `ReadStream::DeserialiseSequenceRelative` (src/unnamed/part_016): decode
through the `uint32` relative scheme and truncate to `uint16`. -/
def deserialiseSequenceRelative (r : BitReaderState) (sequence1 : Nat) :
    Option (BitReaderState × Nat) :=
  (deserialiseUnsignedIntegerRelative32 r sequence1).map fun out => (out.1, out.2 % 65536)

/-! ### Reliable-ordered regular packet payload
(src/Network/include/ReliableUDP/Errors.hpp, `GetMessagePacketData` and the
id-decoding phase of `ProcessPacketData`) -/

/-- `ReliableOrderedChannel::GetMessagePacketData`: `channel_index`, a `0`
block bit, a `1` has-messages bit, `number_of_message_ids` in the range
`[1, max_messages_per_packet]`, then per message only the user handler's
payload (`SerialiseMessage`) — the source writes neither the message id nor
the protocol tag.  The source's range-for walks the whole `std::array` of
ids; the fold below walks the chosen ids, which emits the same bits for a
handler whose payload is independent of the extra (unused) array slots. -/
def GetMessagePacketData (number_of_channels channel_index max_messages : Nat)
    (serialiseMessage : Nat → BitWriterState → BitWriterState)
    (message_ids : List Nat) (number_of_message_ids : Nat)
    (w : BitWriterState) : BitWriterState :=
  let w := serialiseInteger w channel_index 0 (number_of_channels - 1)
  let w := serialiseBits w 0 1
  let w := serialiseBits w 1 1
  let w := serialiseInteger w number_of_message_ids 1 max_messages
  message_ids.foldl (fun acc mid => serialiseMessage mid acc) w

def readRelativeIds : BitReaderState → Nat → Nat → Option (BitReaderState × List Nat)
  | r, _, 0 => some (r, [])
  | r, prev, k + 1 =>
    match deserialiseSequenceRelative r prev with
    | none => none
    | some (r1, id1) =>
      match readRelativeIds r1 id1 k with
      | none => none
      | some (r2, ids) => some (r2, id1 :: ids)

/-- The id-decoding phase of `ReliableOrderedChannel::ProcessPacketData`:
`number_of_messages` in `[0, max_messages_per_packet]`, an unconditional
16-bit first id, then `number_of_messages - 1` relative ids. -/
def processPacketDataIds (max_messages : Nat) (r : BitReaderState) :
    Option (BitReaderState × Nat × List Nat) :=
  match deserialiseInteger r 0 max_messages with
  | none => none
  | some (r, number_of_messages) =>
    match deserialiseBits r 16 with
    | none => none
    | some (r, id0) =>
      match readRelativeIds r id0 (number_of_messages - 1) with
      | none => none
      | some (r, ids) =>
        some (r, number_of_messages, (id0 :: ids).take number_of_messages)

/-- One regular reliable packet written and then decoded: channel 0 of 2
channels, `max_messages_per_packet = 256`, a single included message of id 5
whose payload handler writes no bits.  The decode side first consumes the
`channel_index`, block and has-messages bits exactly as written, then runs
the `ProcessPacketData` id phase and returns the decoded id list. -/
def regularPacketIdDecode : Option (List Nat) :=
  let w := GetMessagePacketData 2 0 256 (fun _ st => st) [5] 1 (BitWriterState.init 4)
  let w := w.FlushBits
  let r := BitReaderState.init w.data w.GetBytesWritten
  match deserialiseInteger r 0 1 with
  | none => none
  | some (r, _) =>
    match deserialiseBits r 1 with
    | none => none
    | some (r, _) =>
      match deserialiseBits r 1 with
      | none => none
      | some (r, _) => (processPacketDataIds 256 r).map fun out => out.2.2

example : regularPacketIdDecode = none := by decide

/-! ### rUDP packet header (src/unnamed/part_022)

Raw byte-level serialisation (`CoreSerialise::WriteUint8` / `WriteUint16`,
little-endian).  Bit `k` of the prefix is modelled as `p / 2 ^ k % 2`, and
byte `k` of the 32-bit ack bitmap as `wordByte ack_bits k`
(`(ack_bits & (0xFF << 8k)) >> 8k`). -/

/-- `WritePacketHeader`: prefix byte (bits 1..4 flag ack-bitmap bytes that
are not all-ones, bit 5 flags a one-byte ack difference), `sequence` as
`uint16` little-endian, the ack as a one-byte difference or a `uint16`
absolute value, then the flagged ack-bitmap bytes in ascending
significance.  `sequence_difference` is `sequence - ack` wrapped into
`[0, 65535]`. -/
def WritePacketHeader (sequence ack ack_bits : Nat) : List Nat :=
  let sequence_difference := (sequence + 65536 - ack) % 65536
  let prefix_byte :=
    (if wordByte ack_bits 0 ≠ 255 then 2 else 0) +
    (if wordByte ack_bits 1 ≠ 255 then 4 else 0) +
    (if wordByte ack_bits 2 ≠ 255 then 8 else 0) +
    (if wordByte ack_bits 3 ≠ 255 then 16 else 0) +
    (if sequence_difference ≤ 255 then 32 else 0)
  [prefix_byte, sequence % 256, sequence / 256 % 256] ++
  (if sequence_difference ≤ 255 then [sequence_difference]
   else [ack % 256, ack / 256 % 256]) ++
  (if wordByte ack_bits 0 ≠ 255 then [wordByte ack_bits 0] else []) ++
  (if wordByte ack_bits 1 ≠ 255 then [wordByte ack_bits 1] else []) ++
  (if wordByte ack_bits 2 ≠ 255 then [wordByte ack_bits 2] else []) ++
  (if wordByte ack_bits 3 ≠ 255 then [wordByte ack_bits 3] else [])

/-- `ReadPacketHeader`: returns `(bytes consumed, sequence, ack, ack_bits)`,
`none` for the source's `-1`.  The source's explicit packet-length checks
are realised by the option-valued byte consumption, which fails exactly
when the corresponding read would pass `packet_bytes`.  The ack bitmap
starts all-ones; a present byte `k` replaces the all-ones byte `k`
(`ack_bits &= clear-mask; ack_bits |= byte << 8k`), which on the all-ones
accumulator is `- 255 * 256 ^ k + byte * 256 ^ k`. -/
def ReadPacketHeader (bytes : List Nat) : Option (Nat × Nat × Nat × Nat) :=
  match bytes with
  | pfx :: s0 :: s1 :: rest =>
    if pfx % 2 = 1 then none
    else
      let sequence := s0 + 256 * s1
      let ackRead : Option (Nat × List Nat) :=
        if pfx / 32 % 2 = 1 then
          match rest with
          | d :: rest1 => some ((sequence + 65536 - d) % 65536, rest1)
          | [] => none
        else
          match rest with
          | a0 :: a1 :: rest1 => some (a0 + 256 * a1, rest1)
          | _ => none
      match ackRead with
      | none => none
      | some (ack, rest1) =>
        let step : Nat → Nat × List Nat → Option (Nat × List Nat) := fun k st =>
          if pfx / 2 ^ (k + 1) % 2 = 1 then
            match st.2 with
            | b :: rest2 => some (st.1 - 255 * 256 ^ k + b * 256 ^ k, rest2)
            | [] => none
          else some st
        match step 0 (4294967295, rest1) with
        | none => none
        | some st1 =>
          match step 1 st1 with
          | none => none
          | some st2 =>
            match step 2 st2 with
            | none => none
            | some st3 =>
              match step 3 st3 with
              | none => none
              | some st4 => some (bytes.length - st4.2.length, sequence, ack, st4.1)
  | _ => none

example : ReadPacketHeader (WritePacketHeader 7 5 13) = some (8, 7, 5, 13) := by decide
example : (WritePacketHeader 7 60000 0).length = 9 := by decide
example : ReadPacketHeader (WritePacketHeader 7 60000 0) = some (9, 7, 60000, 0) := by decide
example : (WritePacketHeader 700 650 4294967295).length = 4 := by decide
example : ReadPacketHeader (WritePacketHeader 700 650 4294967295) =
    some (4, 700, 650, 4294967295) := by decide
example : ReadPacketHeader (WritePacketHeader 100 60000 4294967040) =
    some (6, 100, 60000, 4294967040) := by decide

/-! ### Channel shared data (src/unnamed/part_018, src/Network/include/ReliableUDP/Errors.hpp)

`ChannelMessage.message_data` is an opaque owned byte buffer; it is
modelled by the abstract `payload : Nat` token. -/

inductive ChannelErrorLevel where
  | errorNone
  | desync
  | sendQueueFull
  | failedToSerialise
  | outOfMemory
deriving DecidableEq

def CHANNEL_COUNTER_MESSAGES_SENT : Nat := 0
def CHANNEL_COUNTER_MESSAGES_RECEIVED : Nat := 1
def CHANNEL_COUNTER_NUMBER_OF_COUNTERS : Nat := 2

structure ChannelMessageM where
  message_protocol : Nat
  message_id : Nat
  is_block : Bool
  block_size : Nat
  payload : Nat

structure MessageSendEntryM where
  channel_message : ChannelMessageM
  measuredBits : Nat
  block : Bool
  time_last_sent : Int

structure SentPacketEntryM where
  message_ids : List Nat
  acked : Bool
  block : Bool
  block_message_id : Nat
  block_fragment_id : Nat
  time_sent : Int

structure SendBlockDataM where
  active : Bool
  block_size : Nat
  number_of_fragments : Nat
  number_of_acked_fragments : Nat
  block_message_id : Nat
  acked_fragment : Nat → Bool
  fragment_send_time : Nat → Nat

/-! ### Reliable-ordered channel (src/Network/include/ReliableUDP/Errors.hpp)

Per-channel state.  Queue capacities (`message_send_queue_size` `SendN`,
`message_receive_queue_size` `RecvN`, `message_sent_queue_size` `SentN`)
are template parameters in the source and explicit arguments here. -/

structure ROChannel where
  error_level : Nat → ChannelErrorLevel
  send_message_ids : Nat → Nat
  receive_message_ids : Nat → Nat
  oldest_unacked_message_ids : Nat → Nat
  sent_packets : ReliableBuffer SentPacketEntryM
  message_send_queues : ReliableBuffer MessageSendEntryM
  message_receive_queues : ReliableBuffer ChannelMessageM
  send_blocks : Nat → SendBlockDataM
  counters : Nat → Nat

def ROChannel.setErrorLevel (ch : ROChannel) (c : Nat) (lvl : ChannelErrorLevel) :
    ROChannel :=
  { ch with error_level := fupd ch.error_level c lvl }

def ROChannel.HasMessagesToSend (ch : ROChannel) (c : Nat) : Bool :=
  ch.oldest_unacked_message_ids c != ch.send_message_ids c

def ROChannel.CanSendMessage (SendN : Nat) (ch : ROChannel) (c : Nat) : Bool :=
  ch.message_send_queues.Available SendN c (ch.send_message_ids c)

def ROChannel.SendingBlockMessage (SendN : Nat) (ch : ROChannel) (c : Nat) : Bool :=
  match ch.message_send_queues.Find SendN c (ch.oldest_unacked_message_ids c) with
  | some idx => (ch.message_send_queues.entry_data idx).block
  | none => false

/-- `ReliableOrderedChannel::SendMessage`.  `handlerBits` is the user
handler's `GetMessageSizeInBits`.  In an error state the message is dropped
(its buffer released); on a full send queue the error latches to
`sendQueueFull` and the message is dropped; otherwise the message is
assigned `m_send_message_ids[c]`, inserted, and the id advances
(`uint16` wrap). -/
def ROChannel.SendMessage (SendN : Nat) (handlerBits : Nat → Nat)
    (ch : ROChannel) (c : Nat) (m : ChannelMessageM) : ROChannel :=
  if ch.error_level c ≠ .errorNone then ch
  else if ¬ ch.CanSendMessage SendN c then ch.setErrorLevel c .sendQueueFull
  else
    let mid := ch.send_message_ids c
    let m := { m with message_id := mid }
    let res := ch.message_send_queues.Insert SendN c mid
    let queues :=
      match res.2 with
      | some idx =>
        res.1.setData idx ⟨m, handlerBits m.message_protocol, m.is_block, -1⟩
      | none => res.1
    { ch with
      message_send_queues := queues,
      counters := fupd ch.counters
        (c * CHANNEL_COUNTER_NUMBER_OF_COUNTERS + CHANNEL_COUNTER_MESSAGES_SENT)
        (ch.counters (c * CHANNEL_COUNTER_NUMBER_OF_COUNTERS + CHANNEL_COUNTER_MESSAGES_SENT) + 1),
      send_message_ids := fupd ch.send_message_ids c ((mid + 1) % 65536) }

/-- `ReliableOrderedChannel::ReceiveMessage`: `none` stands for a `false`
return.  In an error state, or when no entry exists at the current
`m_receive_message_ids[c]`, nothing changes; otherwise the entry is moved
out, removed, and the receive id advances. -/
def ROChannel.ReceiveMessage (RecvN : Nat) (ch : ROChannel) (c : Nat) :
    ROChannel × Option ChannelMessageM :=
  if ch.error_level c ≠ .errorNone then (ch, none)
  else
    match ch.message_receive_queues.Find RecvN c (ch.receive_message_ids c) with
    | none => (ch, none)
    | some idx =>
      let m := ch.message_receive_queues.entry_data idx
      ({ ch with
        message_receive_queues :=
          ch.message_receive_queues.Remove RecvN c (ch.receive_message_ids c),
        counters := fupd ch.counters
          (c * CHANNEL_COUNTER_NUMBER_OF_COUNTERS + CHANNEL_COUNTER_MESSAGES_RECEIVED)
          (ch.counters (c * CHANNEL_COUNTER_NUMBER_OF_COUNTERS + CHANNEL_COUNTER_MESSAGES_RECEIVED) + 1),
        receive_message_ids :=
          fupd ch.receive_message_ids c ((ch.receive_message_ids c + 1) % 65536) },
       some m)

/-- `ReliableOrderedChannel::UpdateOldestUnackedMessageID`: walk the oldest
unacked id forward (`uint16` wrap) until it reaches the send queue's
`GetSequence` or an entry exists for it.  The walk revisits no id, so
65536 steps of fuel make the loop total. -/
def updateOldestLoop (SendN : Nat) (q : ReliableBuffer MessageSendEntryM)
    (c stop : Nat) : Nat → Nat → Nat
  | 0, cur => cur
  | fuel + 1, cur =>
    if cur = stop then cur
    else if (q.Find SendN c cur).isSome then cur
    else updateOldestLoop SendN q c stop fuel ((cur + 1) % 65536)

def ROChannel.UpdateOldestUnackedMessageID (SendN : Nat) (ch : ROChannel)
    (c : Nat) : ROChannel :=
  let stop := ch.message_send_queues.sequence c
  { ch with
    oldest_unacked_message_ids := fupd ch.oldest_unacked_message_ids c
      (updateOldestLoop SendN ch.message_send_queues c stop 65536
        (ch.oldest_unacked_message_ids c)) }

/-- `ReliableOrderedChannel::ProcessAcknowledgement`.  There is no
error-level guard in the source.  For each message id recorded against the
acked packet that is still in the send queue, the entry is released,
removed and the oldest unacked id advanced; then, if the packet carried a
block fragment of the active block, the fragment is marked acked and on
the last fragment the block message is removed from the send queue
(the source asserts the `Find`; when it is `none` only the block state
changes). -/
def ROChannel.ProcessAcknowledgement (SentN SendN : Nat) (ch : ROChannel)
    (c sequence : Nat) : ROChannel :=
  match ch.sent_packets.Find SentN c sequence with
  | none => ch
  | some pidx =>
    let entry := ch.sent_packets.entry_data pidx
    let ch := entry.message_ids.foldl
      (fun acc mid =>
        match acc.message_send_queues.Find SendN c mid with
        | none => acc
        | some _ =>
          let acc :=
            { acc with message_send_queues := acc.message_send_queues.Remove SendN c mid }
          acc.UpdateOldestUnackedMessageID SendN c) ch
    let send_block := ch.send_blocks c
    if entry.block ∧ send_block.active ∧
        send_block.block_message_id = entry.block_message_id then
      let messageId := entry.block_message_id
      let fragmentId := entry.block_fragment_id
      if send_block.acked_fragment fragmentId then ch
      else
        let acked2 := fupd send_block.acked_fragment fragmentId true
        let num_acked2 := send_block.number_of_acked_fragments + 1
        let send_block :=
          { send_block with
            acked_fragment := acked2,
            number_of_acked_fragments := num_acked2 }
        if num_acked2 = send_block.number_of_fragments then
          let send_block := { send_block with active := false }
          let ch := { ch with send_blocks := fupd ch.send_blocks c send_block }
          match ch.message_send_queues.Find SendN c messageId with
          | none => ch
          | some _ =>
            let ch :=
              { ch with message_send_queues := ch.message_send_queues.Remove SendN c messageId }
            ch.UpdateOldestUnackedMessageID SendN c
        else { ch with send_blocks := fupd ch.send_blocks c send_block }
    else ch

/-- The per-id processing loop of `ReliableOrderedChannel::ProcessPacketData`
(after the ids are decoded): read the protocol tag, skip ids below the
receive window (without consuming their payload, as in the source), latch
`desync` above the window or on a failed insert, skip ids already queued,
otherwise insert and let the user handler (`deserialiseMessage`) fill the
entry. -/
def processMessagesLoop (RecvN max_type : Nat)
    (deserialiseMessage : BitReaderState → Option (BitReaderState × Nat))
    (c min_message_id max_message_id : Nat) :
    ROChannel → BitReaderState → List Nat → ROChannel
  | ch, _, [] => ch
  | ch, r, id :: rest =>
    match deserialiseInteger r 0 max_type with
    | none => ch.setErrorLevel c .failedToSerialise
    | some (r, protocol) =>
      if SequenceLessThan id min_message_id then
        processMessagesLoop RecvN max_type deserialiseMessage c min_message_id
          max_message_id ch r rest
      else if SequenceGreaterThan id max_message_id then ch.setErrorLevel c .desync
      else if (ch.message_receive_queues.Find RecvN c id).isSome then
        processMessagesLoop RecvN max_type deserialiseMessage c min_message_id
          max_message_id ch r rest
      else
        let res := ch.message_receive_queues.Insert RecvN c id
        match res.2 with
        | none => ({ ch with message_receive_queues := res.1 }).setErrorLevel c .desync
        | some idx =>
          match deserialiseMessage r with
          | none =>
            ({ ch with message_receive_queues := res.1 }).setErrorLevel c
              .failedToSerialise
          | some (r, payload) =>
            let queues := res.1.setData idx ⟨protocol, id, false, 0, payload⟩
            processMessagesLoop RecvN max_type deserialiseMessage c min_message_id
              max_message_id { ch with message_receive_queues := queues } r rest

/-- `ReliableOrderedChannel::ProcessPacketData`: no-op in a non-`errorNone`
state; otherwise decode the id list (any decode failure latches
`failedToSerialise`) and run the per-id loop.  The receive window is
`[m_receive_message_ids[c], m_receive_message_ids[c] + RecvN - 1]`
(`uint16` wrap). -/
def ROChannel.ProcessPacketData (RecvN max_messages max_type : Nat)
    (deserialiseMessage : BitReaderState → Option (BitReaderState × Nat))
    (ch : ROChannel) (c : Nat) (r : BitReaderState) : ROChannel :=
  if ch.error_level c ≠ .errorNone then ch
  else
    let min_message_id := ch.receive_message_ids c
    let max_message_id := (ch.receive_message_ids c + RecvN - 1) % 65536
    match processPacketDataIds max_messages r with
    | none => ch.setErrorLevel c .failedToSerialise
    | some (r, _, ids) =>
      processMessagesLoop RecvN max_type deserialiseMessage c min_message_id
        max_message_id ch r ids

/-- `ReliableOrderedChannel::GetPacketData` (the packet-fill driver).  The
block-mode fragment serialisation (`GetFragmentToSend` /
`GetFragmentPacketData` / `AddFragmentPacketEntry`) and the regular-mode
message selection (`GetMessagesToSend` / `GetMessagePacketData` /
`AddMessagePacketEntry`) are the collaborator calls; they are passed as
functions of the remaining budget: `blockFill` returns the serialised
fragment bits (`none` when no fragment is due), `regularFill` returns
`(number_of_message_ids, messageBits)`.  `available_bits` is a `uint32`;
the source's subtractions wrap accordingly. -/
def ROChannel.GetPacketData (SendN channel_index_bits number_of_messages_bits
    max_fragment_size : Nat) (blockFill : Nat → Option Nat)
    (regularFill : Nat → Nat × Nat) (ch : ROChannel) (c : Nat)
    (available_bits : Nat) : Nat :=
  if ¬ ch.HasMessagesToSend c then 0
  else if channel_index_bits < available_bits then 0
  else
    let available_bits := (available_bits + 4294967296 - channel_index_bits) % 4294967296
    if ch.SendingBlockMessage SendN c then
      if available_bits < max_fragment_size * 8 + 1 then 0
      else
        let available_bits :=
          (available_bits + 4294967296 - (max_fragment_size * 8 + 1)) % 4294967296
        match blockFill available_bits with
        | some fragmentBits => fragmentBits
        | none => 0
    else
      if available_bits < number_of_messages_bits + 1 + 1 then 0
      else
        let available_bits :=
          (available_bits + 4294967296 -
            (channel_index_bits + number_of_messages_bits + 1 + 1)) % 4294967296
        let out := regularFill available_bits
        if 0 < out.1 then out.2 else 0

/-! ### Unreliable-unordered channel (src/Network/include/ReliableUDP/UnreliableMessageChannel.hpp)

The atomic send/receive queues become per-connection lists with the
configured capacity; the flat counter array becomes the `counters`
function. -/

structure UUChannel where
  error_level : Nat → ChannelErrorLevel
  send_queue : Nat → List ChannelMessageM
  receive_queue : Nat → List ChannelMessageM
  counters : Nat → Nat

/-- `UnreliableUnorderedChannel::GetCounter`: the source returns
`m_counters_array[index]`, indexed by the counter index alone. -/
def UUChannel.GetCounter (ch : UUChannel) (connection_index index : Nat) : Nat :=
  ch.counters index

/-- `UnreliableUnorderedChannel::SendMessage`: drop in an error state; on a
full queue latch `sendQueueFull` and drop; otherwise push and increment the
counter at flat index
`connection_index * CHANNEL_COUNTER_NUMBER_OF_COUNTERS + CHANNEL_COUNTER_MESSAGES_SENT`. -/
def UUChannel.SendMessage (send_queue_size : Nat) (ch : UUChannel) (c : Nat)
    (m : ChannelMessageM) : UUChannel :=
  if ch.error_level c ≠ .errorNone then ch
  else if (ch.send_queue c).length = send_queue_size then
    { ch with error_level := fupd ch.error_level c .sendQueueFull }
  else
    { ch with
      send_queue := fupd ch.send_queue c (ch.send_queue c ++ [m]),
      counters := fupd ch.counters
        (c * CHANNEL_COUNTER_NUMBER_OF_COUNTERS + CHANNEL_COUNTER_MESSAGES_SENT)
        (ch.counters (c * CHANNEL_COUNTER_NUMBER_OF_COUNTERS + CHANNEL_COUNTER_MESSAGES_SENT) + 1) }

/-- `UnreliableUnorderedChannel::ReceiveMessage`: `none` for a `false`
return; otherwise pop the next message and increment the counter at flat
index `connection_index * CHANNEL_COUNTER_NUMBER_OF_COUNTERS +
CHANNEL_COUNTER_MESSAGES_RECEIVED`. -/
def UUChannel.ReceiveMessage (ch : UUChannel) (c : Nat) :
    UUChannel × Option ChannelMessageM :=
  if ch.error_level c ≠ .errorNone then (ch, none)
  else
    match ch.receive_queue c with
    | [] => (ch, none)
    | m :: rest =>
      ({ ch with
        receive_queue := fupd ch.receive_queue c rest,
        counters := fupd ch.counters
          (c * CHANNEL_COUNTER_NUMBER_OF_COUNTERS + CHANNEL_COUNTER_MESSAGES_RECEIVED)
          (ch.counters (c * CHANNEL_COUNTER_NUMBER_OF_COUNTERS + CHANNEL_COUNTER_MESSAGES_RECEIVED) + 1) },
       some m)

/-! ### Example states used by concrete witnesses and counterexamples -/

def emptyMessage : ChannelMessageM := ⟨0, 0, false, 0, 0⟩

def emptySendEntry : MessageSendEntryM := ⟨emptyMessage, 0, false, 0⟩

def emptySentEntry : SentPacketEntryM := ⟨[], false, false, 0, 0, 0⟩

def sendBlockReset : SendBlockDataM := ⟨false, 0, 0, 0, 0, fun _ => false, fun _ => 0⟩

/-- A freshly reset reliable-ordered channel. -/
def roIdle : ROChannel :=
  ⟨fun _ => .errorNone, fun _ => 0, fun _ => 0, fun _ => 0,
   ⟨fun _ => 0, fun _ => U32MAX, fun _ => emptySentEntry⟩,
   ⟨fun _ => 0, fun _ => U32MAX, fun _ => emptySendEntry⟩,
   ⟨fun _ => 0, fun _ => U32MAX, fun _ => emptyMessage⟩,
   fun _ => sendBlockReset, fun _ => 0⟩

/-- One unacked regular message (id 0) in connection 0's send queue. -/
def roPending : ROChannel :=
  { roIdle with
    send_message_ids := fun _ => 1,
    message_send_queues := ⟨fun _ => 1, fupd (fun _ => U32MAX) 0 0, fun _ => emptySendEntry⟩ }

/-- A channel latched in the `desync` error state (queue sizes 4) whose
connection 0 still has: a sent-packet entry at sequence 7 recording message
id 3, that message unacked in the send queue, `oldest_unacked = 3`,
`send_id = 4`. -/
def roErrorExample : ROChannel :=
  { roIdle with
    error_level := fun _ => .desync,
    send_message_ids := fun _ => 4,
    oldest_unacked_message_ids := fun _ => 3,
    sent_packets := ⟨fun _ => 8, fupd (fun _ => U32MAX) 3 7,
      fupd (fun _ => emptySentEntry) 3 ⟨[3], false, false, 0, 0, 0⟩⟩,
    message_send_queues := ⟨fun _ => 4, fupd (fun _ => U32MAX) 3 3, fun _ => emptySendEntry⟩ }

/-- An unreliable-unordered channel with empty queues and zero counters. -/
def uuExample : UUChannel :=
  ⟨fun _ => .errorNone, fun _ => [], fun _ => [], fun _ => 0⟩

/-- A received-packet buffer slice (capacity 256, connection 0) holding
exactly sequences 100, 98, 97 and 95, with the next expected sequence 101. -/
def ackExample : ReliableBuffer Unit :=
  ⟨fun _ => 101,
   fun j =>
     if j = 100 then 100 else if j = 98 then 98 else if j = 97 then 97
     else if j = 95 then 95 else U32MAX,
   fun _ => ()⟩

/-- A freshly reset sliding buffer slice. -/
def rbExample : ReliableBuffer Unit := ⟨fun _ => 0, fun _ => U32MAX, fun _ => ()⟩

/-! ## Claims -/

/-- C1: `ReliableOrderedChannel::GetPacketData` does return 0 when there are
no unacked messages, but its budget check is inverted
(`if (available_bits > channel_index_bits) return 0;`), so for any budget
strictly larger than the channel-index bit width — in particular every
budget at least the channel-index bits plus the per-payload overhead — it
returns 0 without writing the channel index, no matter what the block-mode
or regular-mode fill phases would produce.  Instantiated at
`channel_index_bits = 2`, `number_of_messages_bits = 9`,
`available_bits = 1000`. -/
theorem C1_get_packet_data_budget_guard (SendN max_fragment_size available_bits : Nat)
    (blockFill : Nat → Option Nat) (regularFill : Nat → Nat × Nat)
    (chEmpty chPending : ROChannel) (c : Nat)
    (hempty : chEmpty.HasMessagesToSend c = false)
    (hpending : chPending.HasMessagesToSend c = true) :
    ROChannel.GetPacketData SendN 2 9 max_fragment_size blockFill regularFill
      chEmpty c available_bits = 0 ∧
    ROChannel.GetPacketData SendN 2 9 max_fragment_size blockFill regularFill
      chPending c 1000 = 0 := by
  constructor
  · unfold ROChannel.GetPacketData
    rw [if_pos (by simp [hempty])]
  · unfold ROChannel.GetPacketData
    rw [if_neg (by simp [hpending]), if_pos (by norm_num)]

/-- C1 witness: the idle channel and the one-pending-message channel at
connection 0. -/
theorem C1_get_packet_data_budget_guard_witness :
    ROChannel.GetPacketData 4 2 9 1024 (fun _ => none) (fun _ => (0, 0))
      roIdle 0 1000 = 0 ∧
    ROChannel.GetPacketData 4 2 9 1024 (fun _ => none) (fun _ => (0, 0))
      roPending 0 1000 = 0 :=
  C1_get_packet_data_budget_guard 4 1024 1000 (fun _ => none) (fun _ => (0, 0))
    roIdle roPending 0 (by decide) (by decide)

/-- C2: in regular mode the writer (`GetMessagePacketData`) serialises the
channel index, the block and has-messages bits, the message count (range
`[1, max]`) and then only the per-message handler payloads — no message
ids and no protocol tags — while the reader (`ProcessPacketData`) decodes a
count in range `[0, max]`, an absolute 16-bit first id and relative
subsequent ids.  Decoding the writer's own bytes for the single included
id 5 (empty payload) therefore fails instead of recovering `[5]`. -/
theorem C2_message_ids_not_serialised :
    regularPacketIdDecode = none ∧ regularPacketIdDecode ≠ some [5] := by decide

/-- C3: `BitWriter::WriteBytes` followed by `BitReader::ReadBytes` at the
matching byte-aligned position is not the identity: for the four bytes
`[1, 2, 3, 4]` written at bit position 0 of a fresh two-word buffer, the
reader's middle-run copy takes its source from word index 1 (the number of
words to copy) instead of the current word index 0 and returns the zero
word. -/
theorem C3_read_bytes_middle_run_wrong_word :
    byteRoundTrip [1, 2, 3, 4] 2 = [0, 0, 0, 0] ∧
    byteRoundTrip [1, 2, 3, 4] 2 ≠ [1, 2, 3, 4] := by decide

/-- C6 counterexample: the claimed property includes `d = 32768`, but for
`a = 32768`, `d = 32768` the advanced sequence wraps to 0 and
`SequenceGreaterThan 0 32768` is false (`32768 - 0 > 32768` fails). -/
theorem C6_wrap_advance_counterexample :
    ¬ (∀ a d : Nat, a ≤ 65535 → 1 ≤ d → d ≤ 32768 →
        SequenceGreaterThan ((a + d) % 65536) a = true) := fun h =>
  absurd (h 32768 32768 (by decide) (by decide) (by decide)) (by decide)

/-- C6 (amended): for every `a ∈ [0, 65535]` and `d ∈ [1, 32767]`,
`SequenceGreaterThan((a + d) mod 65536, a)` returns true, where
`SequenceGreaterThan(s1, s2) = (s1 > s2 ∧ s1 - s2 ≤ 32768) ∨
(s1 < s2 ∧ s2 - s1 > 32768)`. -/
theorem C6_sequence_greater_than_advance (a d : Nat) (ha : a ≤ 65535)
    (hd1 : 1 ≤ d) (hd2 : d ≤ 32767) :
    SequenceGreaterThan ((a + d) % 65536) a = true := by
  simp only [SequenceGreaterThan, Bool.or_eq_true, Bool.and_eq_true,
    decide_eq_true_eq]
  omega

/-- C6 witness at `a = 100`, `d = 7`. -/
theorem C6_sequence_greater_than_advance_witness :
    SequenceGreaterThan ((100 + 7) % 65536) 100 = true :=
  C6_sequence_greater_than_advance 100 7 (by decide) (by decide) (by decide)

/-- C7 counterexample: `GetRelativeSequenceEncodingBits(1000, 1000)` is not
32: equal sequences give `b - a = 65536`, which falls in the
`difference < 69910` tier, yielding `6 + BitsRequired(4374, 69909) = 22`. -/
theorem C7_equal_sequences_counterexample :
    GetRelativeSequenceEncodingBits 1000 1000 ≠ 32 := by decide

/-- C7 (amended): the tabulated values, with `(1000, 1000)` corrected to
`6 + BitsRequired(4374, 69909)` — a zero 16-bit difference wraps to 65536
and takes the `4374..69909` tier, not the raw full-width fallback. -/
theorem C7_relative_encoding_bits_table :
    GetRelativeSequenceEncodingBits 100 101 = 1 ∧
    GetRelativeSequenceEncodingBits 100 102 = 2 + BitsRequired 2 5 ∧
    GetRelativeSequenceEncodingBits 100 105 = 2 + BitsRequired 2 5 ∧
    GetRelativeSequenceEncodingBits 65530 5 = 3 + BitsRequired 6 21 ∧
    GetRelativeSequenceEncodingBits 65000 1000 = 5 + BitsRequired 278 4373 ∧
    GetRelativeSequenceEncodingBits 1000 1000 = 6 + BitsRequired 4374 69909 := by
  decide

/-- C10: `UnreliableUnorderedChannel::GetCounter(c, k)` returns the flat
counter at index `k` for every connection `c`, while a successful
`SendMessage` on connection `c` increments the flat counter at
`c * CHANNEL_COUNTER_NUMBER_OF_COUNTERS + CHANNEL_COUNTER_MESSAGES_SENT`;
for `c > 0` the send therefore leaves `GetCounter(c, MESSAGES_SENT)`
unchanged. -/
theorem C10_get_counter_ignores_connection (ch : UUChannel)
    (send_queue_size c c2 k : Nat) (m : ChannelMessageM) (hc : 0 < c)
    (he : ch.error_level c = .errorNone)
    (hq : (ch.send_queue c).length ≠ send_queue_size) :
    ch.GetCounter c k = ch.GetCounter c2 k ∧
    (UUChannel.SendMessage send_queue_size ch c m).counters
        (c * CHANNEL_COUNTER_NUMBER_OF_COUNTERS + CHANNEL_COUNTER_MESSAGES_SENT) =
      ch.counters
        (c * CHANNEL_COUNTER_NUMBER_OF_COUNTERS + CHANNEL_COUNTER_MESSAGES_SENT) + 1 ∧
    (UUChannel.SendMessage send_queue_size ch c m).GetCounter c
        CHANNEL_COUNTER_MESSAGES_SENT =
      ch.GetCounter c CHANNEL_COUNTER_MESSAGES_SENT := by
  refine ⟨rfl, ?_, ?_⟩
  · unfold UUChannel.SendMessage
    rw [if_neg (by simp [he]), if_neg hq]
    simp [fupd]
  · unfold UUChannel.SendMessage UUChannel.GetCounter
    rw [if_neg (by simp [he]), if_neg hq]
    simp only [CHANNEL_COUNTER_MESSAGES_SENT, CHANNEL_COUNTER_NUMBER_OF_COUNTERS, fupd]
    rw [if_neg (by omega)]

/-- C10 witness: a send on connection 1 of the fresh channel (queue size 4)
bumps flat counter 2 and leaves `GetCounter 1 MESSAGES_SENT` at 0. -/
theorem C10_get_counter_ignores_connection_witness :
    uuExample.GetCounter 1 0 = uuExample.GetCounter 0 0 ∧
    (UUChannel.SendMessage 4 uuExample 1 emptyMessage).counters
        (1 * CHANNEL_COUNTER_NUMBER_OF_COUNTERS + CHANNEL_COUNTER_MESSAGES_SENT) =
      uuExample.counters
        (1 * CHANNEL_COUNTER_NUMBER_OF_COUNTERS + CHANNEL_COUNTER_MESSAGES_SENT) + 1 ∧
    (UUChannel.SendMessage 4 uuExample 1 emptyMessage).GetCounter 1
        CHANNEL_COUNTER_MESSAGES_SENT =
      uuExample.GetCounter 1 CHANNEL_COUNTER_MESSAGES_SENT :=
  C10_get_counter_ignores_connection uuExample 4 1 0 0 emptyMessage (by decide)
    (by decide) (by decide)

theorem foldl_or_shift_testBit (f : Nat → Bool) (n j : Nat) :
    ((List.range n).foldl (fun acc i => if f i then acc ||| (1 <<< i) else acc) 0).testBit j
      = (decide (j < n) && f j) := by
  induction n with
  | zero => simp
  | succ n ih =>
    rw [List.range_succ, List.foldl_append, List.foldl_cons, List.foldl_nil]
    by_cases hf : f n
    · rw [if_pos hf, Nat.testBit_or, ih, Nat.shiftLeft_eq, one_mul]
      by_cases hj : j = n
      · subst hj
        simp [Nat.testBit_two_pow_self, hf]
      · rw [Nat.testBit_two_pow_of_ne (fun he => hj he.symm), Bool.or_false,
          decide_eq_decide.mpr (by omega : j < n ↔ j < n + 1)]
    · rw [if_neg hf, ih]
      by_cases hj : j = n
      · subst hj
        simp [hf]
      · rw [decide_eq_decide.mpr (by omega : j < n ↔ j < n + 1)]

/-- C4 counterexample: on a channel latched in `desync`,
`ProcessAcknowledgement` is not a no-op — acknowledging packet sequence 7
(which recorded message id 3) removes the message from the send queue and
advances the oldest unacked id from 3 to 4, because the source has no
error-level guard in `ProcessAcknowledgement`. -/
theorem C4_process_acknowledgement_not_noop :
    roErrorExample.error_level 0 ≠ .errorNone ∧
    roErrorExample.oldest_unacked_message_ids 0 = 3 ∧
    roErrorExample.message_send_queues.entry_sequence 3 = 3 ∧
    (ROChannel.ProcessAcknowledgement 4 4 roErrorExample 0 7).oldest_unacked_message_ids 0 = 4 ∧
    (ROChannel.ProcessAcknowledgement 4 4 roErrorExample 0 7).message_send_queues.entry_sequence 3 = U32MAX := by
  decide

/-- C4 (amended): for every connection whose reliable-ordered channel error
state is not `errorNone`, `SendMessage` drops the message and leaves the
channel unchanged, `ReceiveMessage` returns false and leaves the channel
unchanged, and `ProcessPacketData` is a no-op; `ProcessAcknowledgement`,
however, performs no error-state check and can still mutate the channel. -/
theorem C4_error_state_operations (SendN RecvN max_messages max_type : Nat)
    (handlerBits : Nat → Nat)
    (deserialiseMessage : BitReaderState → Option (BitReaderState × Nat))
    (ch : ROChannel) (c : Nat) (m : ChannelMessageM) (r : BitReaderState)
    (h : ch.error_level c ≠ .errorNone) :
    ROChannel.SendMessage SendN handlerBits ch c m = ch ∧
    ROChannel.ReceiveMessage RecvN ch c = (ch, none) ∧
    ROChannel.ProcessPacketData RecvN max_messages max_type deserialiseMessage
      ch c r = ch := by
  refine ⟨?_, ?_, ?_⟩
  · unfold ROChannel.SendMessage
    rw [if_pos h]
  · unfold ROChannel.ReceiveMessage
    rw [if_pos h]
  · unfold ROChannel.ProcessPacketData
    rw [if_pos h]

/-- C4 witness: the latched-`desync` channel at connection 0. -/
theorem C4_error_state_operations_witness :
    ROChannel.SendMessage 4 (fun _ => 0) roErrorExample 0 emptyMessage = roErrorExample ∧
    ROChannel.ReceiveMessage 4 roErrorExample 0 = (roErrorExample, none) ∧
    ROChannel.ProcessPacketData 4 256 65535 (fun _ => none) roErrorExample 0
      (BitReaderState.init [] 0) = roErrorExample :=
  C4_error_state_operations 4 4 256 65535 (fun _ => 0) (fun _ => none)
    roErrorExample 0 emptyMessage (BitReaderState.init [] 0) (by decide)

/-- C5 counterexample: in the spec's own example state — received sequences
{100, 98, 97, 95}, next expected sequence 101 — the generated pair is not
`(100, 0b1101)`: bit 5 (for sequence 95 = 100 - 5) is also set. -/
theorem C5_ack_bits_example_counterexample :
    ackExample.GenerateAcknowledgementBits 256 0 ≠ (100, 13) := by decide

/-- C5 (amended): `GenerateAcknowledgementBits` computes
`ack = received_next_seq - 1` (`uint16` wrap) and sets bit `i` of
`ack_bits` (for `i` in `0..31`) iff sequence `ack - i` exists in the
received-packet buffer; on the example state with received
{100, 98, 97, 95} and next sequence 101 it yields `ack = 100` and
`ack_bits = 0b101101 = 45` (bits 0, 2, 3 and 5 set; bit 1 for 99 clear). -/
theorem C5_generate_acknowledgement_bits {α : Type} (N : Nat)
    (buf : ReliableBuffer α) (c : Nat) :
    (buf.GenerateAcknowledgementBits N c).1 = (buf.sequence c + 65535) % 65536 ∧
    (∀ i, i < 32 →
      (buf.GenerateAcknowledgementBits N c).2.testBit i =
        buf.ExistsEntry N c
          (((buf.sequence c + 65535) % 65536 + 65536 - i) % 65536)) ∧
    ackExample.GenerateAcknowledgementBits 256 0 = (100, 45) := by
  refine ⟨rfl, ?_, by decide⟩
  intro i hi
  unfold ReliableBuffer.GenerateAcknowledgementBits
  rw [foldl_or_shift_testBit]
  simp [hi]

/-- Membership of `u` (a 16-bit value) in the wrap-interval `[start, fin]`
swept by `RemoveEntries`, matching the source's `finish += 65536`
adjustment. -/
def inSweepRange (start fin u : Nat) : Prop :=
  (start ≤ u ∧ u ≤ (if fin < start then fin + 65536 else fin)) ∨
  (start ≤ u + 65536 ∧ u + 65536 ≤ (if fin < start then fin + 65536 else fin))

theorem foldl_clearEntry_sequence {α : Type} (g : Nat → Nat) (L : List Nat)
    (buf : ReliableBuffer α) :
    (L.foldl (fun b k => b.clearEntry (g k)) buf).sequence = buf.sequence := by
  induction L generalizing buf with
  | nil => rfl
  | cons a L ih =>
    rw [List.foldl_cons, ih]
    rfl

theorem foldl_clearEntry_entry_sequence {α : Type} (g : Nat → Nat) (L : List Nat)
    (buf : ReliableBuffer α) (j : Nat) :
    (L.foldl (fun b k => b.clearEntry (g k)) buf).entry_sequence j
      = if ∃ k ∈ L, g k = j then U32MAX else buf.entry_sequence j := by
  induction L generalizing buf with
  | nil => simp
  | cons a L ih =>
    rw [List.foldl_cons, ih]
    by_cases h : ∃ k ∈ L, g k = j
    · rw [if_pos h, if_pos (by
        rcases h with ⟨k, hk, he⟩
        exact ⟨k, List.mem_cons_of_mem a hk, he⟩)]
    · rw [if_neg h]
      by_cases h2 : g a = j
      · rw [if_pos ⟨a, List.mem_cons_self a L, h2⟩]
        simp [ReliableBuffer.clearEntry, fupd, h2]
      · rw [if_neg (by
          rintro ⟨k, hk, he⟩
          rcases List.mem_cons.mp hk with rfl | hk2
          exacts [h2 he, h ⟨k, hk2, he⟩])]
        simp only [ReliableBuffer.clearEntry, fupd]
        rw [if_neg (fun hh => h2 hh.symm)]

theorem RemoveEntries_sequence {α : Type} (N : Nat) (buf : ReliableBuffer α)
    (c start fin : Nat) :
    (buf.RemoveEntries N c start fin).sequence = buf.sequence := by
  unfold ReliableBuffer.RemoveEntries
  dsimp only
  split <;> split <;> exact foldl_clearEntry_sequence _ _ _

theorem RemoveEntries_clears {α : Type} (N : Nat) (buf : ReliableBuffer α)
    (c start fin u : Nat) (hN : 0 < N) (hdvd : N ∣ 65536) (hu : u < 65536)
    (hr : inSweepRange start fin u) :
    (buf.RemoveEntries N c start fin).entry_sequence (c * N + u % N) = U32MAX := by
  obtain ⟨t, ht⟩ := hdvd
  unfold inSweepRange at hr
  unfold ReliableBuffer.RemoveEntries
  dsimp only
  set fin2 := if fin < start then fin + 65536 else fin with hfin2
  split
  · rw [foldl_clearEntry_entry_sequence, if_pos ?_]
    rcases hr with ⟨h1, h2⟩ | ⟨h1, h2⟩
    · refine ⟨u - start, List.mem_range.mpr (by omega), ?_⟩
      rw [(by omega : start + (u - start) = u)]
    · refine ⟨u + 65536 - start, List.mem_range.mpr (by omega), ?_⟩
      rw [(by omega : start + (u + 65536 - start) = u + 65536)]
      rw [ht, Nat.add_mul_mod_self_left]
  · rw [foldl_clearEntry_entry_sequence,
      if_pos ⟨u % N, List.mem_range.mpr (Nat.mod_lt u hN), rfl⟩]

/-- C9: `ReliableBuffer::Insert` behaves as specified, for a capacity `N`
dividing 65536 (the source's static invariant) with `N < 65536` and a
16-bit sequence `s`: when `Greater(s + 1, next_seq)` the sweep clears every
swept sequence other than `s` (their `Find` is nil afterwards) and
`next_seq` becomes `s + 1`; when `¬Greater(s + 1, next_seq)` and
`Less(s, next_seq - N)` the insert returns nil and changes nothing; and any
successful insert returns the slot `c * N + s % N`, stores `s` there, so
`Find(c, s)` returns that slot and `Find(c, s - N)` returns nil. -/
theorem C9_reliable_buffer_insert {α : Type} (N c s : Nat)
    (buf : ReliableBuffer α) (hN : 0 < N) (hdvd : N ∣ 65536) (hNlt : N < 65536)
    (hs : s < 65536) :
    (SequenceGreaterThan ((s + 1) % 65536) (buf.sequence c) = true →
      (buf.Insert N c s).1.sequence c = (s + 1) % 65536 ∧
      (∀ u, u < 65536 → inSweepRange (buf.sequence c) s u → u ≠ s →
        (buf.Insert N c s).1.Find N c u = none)) ∧
    (SequenceGreaterThan ((s + 1) % 65536) (buf.sequence c) = false →
      SequenceLessThan s ((buf.sequence c + 65536 - N % 65536) % 65536) = true →
      buf.Insert N c s = (buf, none)) ∧
    ((buf.Insert N c s).2 ≠ none →
      (buf.Insert N c s).2 = some (c * N + s % N) ∧
      (buf.Insert N c s).1.entry_sequence (c * N + s % N) = s ∧
      (buf.Insert N c s).1.Find N c s = some (c * N + s % N) ∧
      (buf.Insert N c s).1.Find N c ((s + 65536 - N) % 65536) = none) := by
  have hslot : (s + 65536 - N) % 65536 % N = s % N := by
    obtain ⟨t, ht⟩ := hdvd
    rw [Nat.mod_mod_of_dvd _ ⟨t, ht⟩]
    rw [(by omega : s + 65536 - N = s + (65536 - N))]
    obtain ⟨v, hv⟩ := Nat.dvd_sub' ⟨t, ht⟩ (dvd_refl N)
    rw [hv, Nat.add_mul_mod_self_left]
  have hne : s ≠ (s + 65536 - N) % 65536 := by omega
  unfold ReliableBuffer.Insert
  by_cases hg : SequenceGreaterThan ((s + 1) % 65536) (buf.sequence c) = true
  · rw [if_pos hg]
    refine ⟨fun _ => ⟨?_, fun u hu hr hus => ?_⟩, fun hgf _ => absurd hg (by simp [hgf]),
      fun _ => ⟨rfl, ?_, ?_, ?_⟩⟩
    · show fupd (buf.RemoveEntries N c (buf.sequence c) s).sequence c ((s + 1) % 65536) c
        = (s + 1) % 65536
      simp [fupd]
    · show ReliableBuffer.Find N _ c u = none
      unfold ReliableBuffer.Find
      dsimp only
      rw [if_neg ?_]
      show ¬ (fupd (buf.RemoveEntries N c (buf.sequence c) s).entry_sequence
        (c * N + s % N) s (c * N + u % N) = u)
      unfold fupd
      by_cases he : c * N + u % N = c * N + s % N
      · rw [if_pos he]
        exact fun hh => hus hh.symm
      · rw [if_neg he]
        rw [RemoveEntries_clears N buf c (buf.sequence c) s u hN hdvd hu hr]
        unfold U32MAX
        omega
    · show fupd (buf.RemoveEntries N c (buf.sequence c) s).entry_sequence
        (c * N + s % N) s (c * N + s % N) = s
      simp [fupd]
    · unfold ReliableBuffer.Find
      dsimp only
      rw [if_pos (by simp [fupd])]
    · unfold ReliableBuffer.Find
      dsimp only
      rw [if_neg ?_]
      rw [hslot]
      unfold fupd
      rw [if_pos rfl]
      exact hne
  · rw [if_neg hg]
    by_cases hl : SequenceLessThan s ((buf.sequence c + 65536 - N % 65536) % 65536) = true
    · rw [if_pos hl]
      exact ⟨fun hgt => absurd hgt (by simp_all), fun _ _ => rfl,
        fun hne2 => absurd rfl hne2⟩
    · rw [if_neg hl]
      refine ⟨fun hgt => absurd hgt (by simp_all), fun _ hlt => absurd hlt hl,
        fun _ => ⟨rfl, ?_, ?_, ?_⟩⟩
      · show fupd buf.entry_sequence (c * N + s % N) s (c * N + s % N) = s
        simp [fupd]
      · unfold ReliableBuffer.Find
        dsimp only
        rw [if_pos (by simp [fupd])]
      · unfold ReliableBuffer.Find
        dsimp only
        rw [if_neg ?_]
        rw [hslot]
        unfold fupd
        rw [if_pos rfl]
        exact hne

/-- C9 witness: inserting sequence 0 into a fresh buffer of capacity 4. -/
theorem C9_reliable_buffer_insert_witness :
    (rbExample.Insert 4 0 0).1.Find 4 0 0 = some 0 ∧
    (rbExample.Insert 4 0 0).1.Find 4 0 ((0 + 65536 - 4) % 65536) = none := by
  have h := C9_reliable_buffer_insert 4 0 0 rbExample (by decide) (by decide)
    (by decide) (by decide)
  have h3 := h.2.2 (by decide)
  refine ⟨?_, ?_⟩
  · have := h3.2.2.1
    simpa using this
  · have := h3.2.2.2
    simpa using this

set_option maxHeartbeats 8000000 in
/-- C8: for every 16-bit `sequence` and `ack` and 32-bit `ack_bits`,
`WritePacketHeader` produces 4 to 9 bytes and `ReadPacketHeader` recovers
exactly `(sequence, ack, ack_bits)` (consuming the whole header); the ack
is written as a one-byte difference exactly when
`(sequence - ack) mod 65536 ≤ 255` (prefix bit 5), and ack-bitmap byte `k`
is present exactly when byte `k` of `ack_bits` is not all-ones (prefix
bits 1..4). -/
theorem C8_packet_header_round_trip (sequence ack ack_bits : Nat)
    (hs : sequence < 65536) (ha : ack < 65536) (hb : ack_bits < 4294967296) :
    4 ≤ (WritePacketHeader sequence ack ack_bits).length ∧
    (WritePacketHeader sequence ack ack_bits).length ≤ 9 ∧
    ReadPacketHeader (WritePacketHeader sequence ack ack_bits) =
      some ((WritePacketHeader sequence ack ack_bits).length, sequence, ack, ack_bits) ∧
    ((WritePacketHeader sequence ack ack_bits).headD 0 / 32 % 2 = 1 ↔
      (sequence + 65536 - ack) % 65536 ≤ 255) ∧
    ((WritePacketHeader sequence ack ack_bits).headD 0 / 2 % 2 = 1 ↔
      wordByte ack_bits 0 ≠ 255) ∧
    ((WritePacketHeader sequence ack ack_bits).headD 0 / 4 % 2 = 1 ↔
      wordByte ack_bits 1 ≠ 255) ∧
    ((WritePacketHeader sequence ack ack_bits).headD 0 / 8 % 2 = 1 ↔
      wordByte ack_bits 2 ≠ 255) ∧
    ((WritePacketHeader sequence ack ack_bits).headD 0 / 16 % 2 = 1 ↔
      wordByte ack_bits 3 ≠ 255) := by
  by_cases hd : (sequence + 65536 - ack) % 65536 ≤ 255
  all_goals by_cases h0 : ack_bits / 256 ^ 0 % 256 = 255
  all_goals by_cases h1 : ack_bits / 256 ^ 1 % 256 = 255
  all_goals by_cases h2 : ack_bits / 256 ^ 2 % 256 = 255
  all_goals by_cases h3 : ack_bits / 256 ^ 3 % 256 = 255
  all_goals (repeat' apply And.intro)
  all_goals
    simp only [WritePacketHeader, ReadPacketHeader, wordByte, hd, h0, h1, h2, h3,
      ne_eq, not_true_eq_false, not_false_eq_true, if_true, if_false, ite_true,
      ite_false, List.cons_append, List.nil_append, List.append_nil,
      List.length_cons, List.length_nil, List.headD]
  all_goals try norm_num
  all_goals omega

/-- C8 witness at `sequence = 7`, `ack = 60000` (two-byte ack),
`ack_bits = 0` (all four bitmap bytes present, header length 9). -/
theorem C8_packet_header_round_trip_witness :
    4 ≤ (WritePacketHeader 7 60000 0).length ∧
    (WritePacketHeader 7 60000 0).length ≤ 9 ∧
    ReadPacketHeader (WritePacketHeader 7 60000 0) =
      some ((WritePacketHeader 7 60000 0).length, 7, 60000, 0) ∧
    ((WritePacketHeader 7 60000 0).headD 0 / 32 % 2 = 1 ↔
      (7 + 65536 - 60000) % 65536 ≤ 255) ∧
    ((WritePacketHeader 7 60000 0).headD 0 / 2 % 2 = 1 ↔ wordByte 0 0 ≠ 255) ∧
    ((WritePacketHeader 7 60000 0).headD 0 / 4 % 2 = 1 ↔ wordByte 0 1 ≠ 255) ∧
    ((WritePacketHeader 7 60000 0).headD 0 / 8 % 2 = 1 ↔ wordByte 0 2 ≠ 255) ∧
    ((WritePacketHeader 7 60000 0).headD 0 / 16 % 2 = 1 ↔ wordByte 0 3 ≠ 255) :=
  C8_packet_header_round_trip 7 60000 0 (by decide) (by decide) (by decide)

example : byteRoundTrip [9] 2 = [9] := by decide
example : byteRoundTrip [1, 2, 3] 2 = [1, 2, 3] := by decide
example : byteRoundTrip [1, 2, 3, 4] 2 = [0, 0, 0, 0] := by decide

example : BitsRequired 2 5 = 2 := by decide
example : BitsRequired 278 4373 = 12 := by decide
example : GetRelativeSequenceEncodingBits 100 101 = 1 := by decide
example : GetRelativeSequenceEncodingBits 65530 5 = 7 := by decide
example : GetRelativeSequenceEncodingBits 65000 1000 = 17 := by decide
example : GetRelativeSequenceEncodingBits 1000 1000 = 22 := by decide
example : SequenceGreaterThan ((32768 + 32768) % 65536) 32768 = false := by decide
